import Mathlib

/-!
Verification development for the `abc-product` library: a two-pass
extraction-and-reconciliation pipeline that rebuilds inventory product
records from a legacy accounting export split across two tab-delimited
files.  Pure functions of `src/lib.rs` are embedded shallowly; the
external collaborators (decimal parser, date parser, barcode checksum
library) are modelled from their documented contracts.  Files are
modelled as lists of rows, each row a list of string fields, since the
delimited-text reader is an external collaborator.
-/

/-- Exact-precision decimal amounts (rust_decimal `Decimal`), modelled as an
unscaled natural mantissa with a power-of-ten scale, which is rust_decimal's
own representation.  The pipeline only stores decimals, so structural
equality suffices for the properties below. -/
structure Decimal where
  mantissa : ℕ
  scale : ℕ
deriving DecidableEq

/-- The exact rational value a decimal denotes. -/
def Decimal.val (d : Decimal) : ℚ :=
  (d.mantissa : ℚ) / 10 ^ d.scale

instance {ε α : Type} [DecidableEq ε] [DecidableEq α] : DecidableEq (Except ε α) :=
  fun a b =>
    match a, b with
    | .ok x, .ok y =>
      if h : x = y then .isTrue (by rw [h]) else .isFalse (fun hc => h (by cases hc; rfl))
    | .error e, .error f =>
      if h : e = f then .isTrue (by rw [h]) else .isFalse (fun hc => h (by cases hc; rfl))
    | .ok _, .error _ => .isFalse (fun hc => by cases hc)
    | .error _, .ok _ => .isFalse (fun hc => by cases hc)

/-- Interpret a list of ASCII digit characters as a natural number. -/
def natFromDigits (l : List Char) : ℕ :=
  l.foldl (fun a c => a * 10 + (c.toNat - 48)) 0

/-- Modelled from the spec: the external decimal-parser collaborator
(rust_decimal), whose contract is an exact-precision parse of a cleaned
numeric literal that fails on malformed input (empty string, more than one
decimal point, no digits).  Only digit/point strings reach it here. -/
def decimalFromChars (l : List Char) : Option Decimal :=
  if l = [] then none
  else if 2 ≤ l.count '.' then none
  else if l.all (fun c => c.isDigit || c == '.') then
    if l.filter Char.isDigit = [] then none
    else
      let intPart := l.takeWhile (fun c => c ≠ '.')
      let fracPart := (l.dropWhile (fun c => c ≠ '.')).drop 1
      some ⟨natFromDigits (intPart ++ fracPart), fracPart.length⟩
  else none

/-- Embeds `price_from_str` (src/lib.rs lines 19-25): keep only decimal
digits and the decimal point, then hand the remainder to the exact decimal
parser. -/
def price_from_str (s : String) : Option Decimal :=
  decimalFromChars (s.data.filter (fun c => c.isDigit || c == '.'))

/-- A 13-digit EAN barcode from the external `ean13` crate, modelled as its
digit list. -/
structure Ean13 where
  digits : List ℕ
deriving DecidableEq

/-- Check digit of an EAN-13 code: alternating 1,3 weights over the first
twelve digits, complemented modulo 10. -/
def ean13CheckDigit (payload : List ℕ) : ℕ :=
  (10 - (payload.zipWith (fun d w => d * w) [1, 3, 1, 3, 1, 3, 1, 3, 1, 3, 1, 3]).sum % 10) % 10

/-- Numeric values of the characters of a digit string. -/
def digitVals (s : String) : List ℕ :=
  s.data.map (fun c => c.toNat - 48)

/-- Modelled from the spec: the external barcode checksum collaborator
(`Ean13::from_str_nonstrict`), whose contract is to accept numeric strings
of checksum-bearing length and recompute/repair the trailing check digit,
failing only on structurally invalid input (wrong length class or
non-numeric characters).  A 13-digit string is an EAN-13 whose check digit
is recomputed; a 12-digit string is a UPC-A (zero-extended to EAN-13) whose
check digit is recomputed; an 11-digit string is a UPC-A payload missing
its check digit, which is computed outright (the crate accepts this, as the
repository test exercises). -/
def Ean13.from_str_nonstrict (s : String) : Option Ean13 :=
  if s.data.all Char.isDigit then
    if (digitVals s).length = 13 then
      some ⟨(digitVals s).take 12 ++ [ean13CheckDigit ((digitVals s).take 12)]⟩
    else if (digitVals s).length = 12 then
      some ⟨(0 :: (digitVals s).take 11) ++ [ean13CheckDigit (0 :: (digitVals s).take 11)]⟩
    else if (digitVals s).length = 11 then
      some ⟨(0 :: digitVals s) ++ [ean13CheckDigit (0 :: digitVals s)]⟩
    else none
  else none

/-- A well-formed normalized barcode: thirteen digits whose last digit is
the checksum of the first twelve. -/
def validEan (e : Ean13) : Prop :=
  e.digits.length = 13 ∧ e.digits = e.digits.take 12 ++ [ean13CheckDigit (e.digits.take 12)]

instance (e : Ean13) : Decidable (validEan e) := by
  unfold validEan; infer_instance

/-- Calendar date (chrono `NaiveDate`), modelled by its components. -/
structure NaiveDate where
  year : ℕ
  month : ℕ
  day : ℕ
deriving DecidableEq

/-- Split a character list at every occurrence of a separator, keeping
empty pieces, as Rust `str::split` does. -/
def splitOnChar (sep : Char) : List Char → List (List Char)
  | [] => [[]]
  | c :: rest =>
    if c = sep then [] :: splitOnChar sep rest
    else
      match splitOnChar sep rest with
      | [] => [[c]]
      | h :: t => (c :: h) :: t

/-- Modelled from the spec: the external calendar-date parser collaborator
(chrono, format `%Y-%m-%d`), whose contract is to parse `YYYY-MM-DD` and
return absent on any other format without raising. -/
def parseDate (s : String) : Option NaiveDate :=
  match splitOnChar '-' s.data with
  | [y, m, d] =>
    if y.length = 4 ∧ y.all Char.isDigit ∧
        1 ≤ m.length ∧ m.length ≤ 2 ∧ m.all Char.isDigit ∧
        1 ≤ d.length ∧ d.length ≤ 2 ∧ d.all Char.isDigit ∧
        1 ≤ natFromDigits m ∧ natFromDigits m ≤ 12 ∧
        1 ≤ natFromDigits d ∧ natFromDigits d ≤ 31 then
      some ⟨natFromDigits y, natFromDigits m, natFromDigits d⟩
    else none
  | _ => none

/-- Floating-point quantities (Rust `f64`), modelled as the sign, mantissa
and scale of the decimal literal the export carries; the pipeline only
stores and compares them, never computes with them. -/
structure F64 where
  neg : Bool
  mantissa : ℕ
  scale : ℕ
deriving DecidableEq

/-- Modelled from the spec: the standard floating-point parser collaborator
(`str::parse::<f64>`), used for the plain-float fields (stock, weight).
The accepted grammar is an optional sign followed by a decimal literal. -/
def parseF64 (s : String) : Option F64 :=
  match s.data with
  | '-' :: rest => (decimalFromChars rest).map (fun d => ⟨true, d.mantissa, d.scale⟩)
  | '+' :: rest => (decimalFromChars rest).map (fun d => ⟨false, d.mantissa, d.scale⟩)
  | l => (decimalFromChars l).map (fun d => ⟨false, d.mantissa, d.scale⟩)

/-- Embeds the `AbcProduct` struct (src/lib.rs lines 47-59). -/
structure AbcProduct where
  sku : String
  desc : String
  upcs : List Ean13
  list : Decimal
  cost : Decimal
  stock : F64
  group : Option String
  weight : Option F64
  last_sold : Option NaiveDate
  alt_skus : List String
deriving DecidableEq

/-- Embeds the `AbcProductBuilder` struct (src/lib.rs lines 62-73). -/
structure AbcProductBuilder where
  sku : Option String
  desc : Option String
  upcs : List Ean13
  list : Option Decimal
  cost : Option Decimal
  stock : Option F64
  weight : Option F64
  group : Option String
  last_sold : Option NaiveDate
  alt_skus : List String
deriving DecidableEq

/-- Embeds the `AbcParseError` enum (src/lib.rs lines 78-91).  The payload
of `CsvError` is abstracted to a message, as `csv::Error` is opaque to this
library. -/
inductive AbcParseError where
  | CsvError (msg : String)
  | MissingField (field : String) (row : ℕ)
  | MisMatchedSkus
  | Custom (ctx : String)
deriving DecidableEq

/-- Embeds `AbcProductBuilder::new` (src/lib.rs lines 246-259). -/
def AbcProductBuilder.new : AbcProductBuilder :=
  { sku := none, desc := none, upcs := [], list := none, cost := none,
    stock := none, weight := none, group := none, last_sold := none,
    alt_skus := [] }

/-- Embeds `AbcProductBuilder::with_sku`. -/
def AbcProductBuilder.with_sku (b : AbcProductBuilder) (sku : String) : AbcProductBuilder :=
  { b with sku := some sku }

/-- Embeds `AbcProductBuilder::with_desc`. -/
def AbcProductBuilder.with_desc (b : AbcProductBuilder) (desc : String) : AbcProductBuilder :=
  { b with desc := some desc }

/-- Embeds `AbcProductBuilder::with_upcs`. -/
def AbcProductBuilder.with_upcs (b : AbcProductBuilder) (upcs : List Ean13) : AbcProductBuilder :=
  { b with upcs := upcs }

/-- Embeds `AbcProductBuilder::add_upc`. -/
def AbcProductBuilder.add_upc (b : AbcProductBuilder) (upc : Ean13) : AbcProductBuilder :=
  { b with upcs := b.upcs ++ [upc] }

/-- Embeds `AbcProductBuilder::with_list`. -/
def AbcProductBuilder.with_list (b : AbcProductBuilder) (list : Decimal) : AbcProductBuilder :=
  { b with list := some list }

/-- Embeds `AbcProductBuilder::with_cost`. -/
def AbcProductBuilder.with_cost (b : AbcProductBuilder) (cost : Decimal) : AbcProductBuilder :=
  { b with cost := some cost }

/-- Embeds `AbcProductBuilder::with_stock`. -/
def AbcProductBuilder.with_stock (b : AbcProductBuilder) (stock : F64) : AbcProductBuilder :=
  { b with stock := some stock }

/-- Embeds `AbcProductBuilder::with_weight`. -/
def AbcProductBuilder.with_weight (b : AbcProductBuilder) (weight : F64) : AbcProductBuilder :=
  { b with weight := some weight }

/-- Embeds `AbcProductBuilder::with_group` (src/lib.rs lines 332-340):
reject characters outside both ASCII letter ranges, otherwise store the
single character uppercased (Rust `to_string().to_uppercase()`, which on
the accepted ASCII letters is exactly the single uppercase letter). -/
def AbcProductBuilder.with_group (b : AbcProductBuilder) (group : Char) : Option AbcProductBuilder :=
  if (group < 'A' ∨ 'Z' < group) ∧ (group < 'a' ∨ 'z' < group) then none
  else some { b with group := some (Char.toUpper group).toString }

/-- Embeds `AbcProductBuilder::with_last_sold`. -/
def AbcProductBuilder.with_last_sold (b : AbcProductBuilder) (last_sold : NaiveDate) : AbcProductBuilder :=
  { b with last_sold := some last_sold }

/-- Embeds `AbcProductBuilder::with_alt_skus`. -/
def AbcProductBuilder.with_alt_skus (b : AbcProductBuilder) (alt_skus : List String) : AbcProductBuilder :=
  { b with alt_skus := alt_skus }

/-- Embeds `AbcProductBuilder::add_alt_sku`. -/
def AbcProductBuilder.add_alt_sku (b : AbcProductBuilder) (alt : String) : AbcProductBuilder :=
  { b with alt_skus := b.alt_skus ++ [alt] }

/-- Embeds `AbcProductBuilder::build` (src/lib.rs lines 379-405): the
required fields are demanded in the order the Rust struct literal evaluates
them (sku, desc, list, cost, stock), each missing one yielding
`MissingField(name, 0)`; optional fields are copied as-is. -/
def AbcProductBuilder.build (b : AbcProductBuilder) : Except AbcParseError AbcProduct :=
  match b.sku with
  | none => .error (.MissingField "sku" 0)
  | some sku =>
    match b.desc with
    | none => .error (.MissingField "desc" 0)
    | some desc =>
      match b.list with
      | none => .error (.MissingField "list" 0)
      | some list =>
        match b.cost with
        | none => .error (.MissingField "cost" 0)
        | some cost =>
          match b.stock with
          | none => .error (.MissingField "stock" 0)
          | some stock =>
            .ok { sku := sku, desc := desc, upcs := b.upcs, list := list,
                  cost := cost, stock := stock, group := b.group,
                  weight := b.weight, last_sold := b.last_sold,
                  alt_skus := b.alt_skus }

/-- Embeds `From<AbcProduct> for AbcProductBuilder` (src/lib.rs lines
407-422): seed a builder with every field of an existing product. -/
def AbcProductBuilder.fromProduct (p : AbcProduct) : AbcProductBuilder :=
  { sku := some p.sku, desc := some p.desc, upcs := p.upcs,
    list := some p.list, cost := some p.cost, stock := some p.stock,
    weight := p.weight, group := p.group, last_sold := p.last_sold,
    alt_skus := p.alt_skus }

/-- Require an optional value, turning absence into the given error (the
`ok_or`/`?` pattern used throughout the extractors). -/
def req {α : Type} (o : Option α) (e : AbcParseError) : Except AbcParseError α :=
  match o with
  | some a => .ok a
  | none => .error e

/-- Embeds the per-run classification inside `parse_item_data` (src/lib.rs
lines 552-566): an 11-digit run gets a placeholder check digit appended and
is handed to the non-strict parser; anything shorter is dropped; anything
of 12 digits and up is handed to the non-strict parser directly. -/
def classifyUpcRun (s : String) : Option Ean13 :=
  if s.length = 11 then Ean13.from_str_nonstrict (s ++ "0")
  else if s.length < 11 then none
  else Ean13.from_str_nonstrict s

/-- Embeds the barcode-field handling of `parse_item_data` (src/lib.rs
lines 546-566): keep only digits and commas, split on commas, classify each
run, and silently drop the runs the parser rejects. -/
def parseUpcs (field : String) : List Ean13 :=
  ((splitOnChar ',' (field.data.filter (fun c => c.isDigit || c == ','))).map String.mk).filterMap classifyUpcRun

/-- Embeds the intermediate record parsed from one `item.data` row
(src/lib.rs lines 103-112). -/
structure IntermediateBaseProduct where
  sku : String
  desc : String
  upcs : List Ean13
  list : Decimal
  cost : Decimal
  group : Option String
  weight : Option F64
  alt_skus : List String
deriving DecidableEq

/-- Embeds the intermediate record parsed from one `item_posted.data` row
(src/lib.rs lines 95-99). -/
structure IntermediatePostedProduct where
  sku : String
  stock : F64
  last_sold : Option NaiveDate
deriving DecidableEq

/-- Embeds one iteration of the row loop of
`IntermediateBaseProduct::parse_item_data` (src/lib.rs lines 535-619),
reading the fixed columns in source order: sku (0), desc (1), barcode
field (43), list (6), cost (8), weight (45, parse failure soft), group
(18, empty normalized to absent), alternate skus (40-42, empties
excluded). -/
def parseBaseRow (row : List String) (i : ℕ) : Except AbcParseError IntermediateBaseProduct := do
  let sku ← req (row.get? 0) (.MissingField "sku" i)
  let desc ← req (row.get? 1) (.MissingField "desc" i)
  let upcField ← req (row.get? 43) (.MissingField "upcs" i)
  let upcs := parseUpcs upcField
  let listStr ← req (row.get? 6) (.MissingField "list" i)
  let list ← req (price_from_str listStr)
    (.Custom ("Cannot parse a price for list in row " ++ toString i))
  let costStr ← req (row.get? 8) (.MissingField "cost" i)
  let cost ← req (price_from_str costStr)
    (.Custom ("Cannot parse a price for cost in row " ++ toString i))
  let weightStr ← req (row.get? 45) (.MissingField "weight" i)
  let weight := parseF64 weightStr
  let group := match row.get? 18 with
    | some g => if g = "" then none else some g
    | none => none
  let alt_skus := [row.get? 40, row.get? 41, row.get? 42].filterMap
    (fun o => match o with
      | some s => if s = "" then none else some s
      | none => none)
  .ok { sku := sku, desc := desc, upcs := upcs, list := list, cost := cost,
        group := group, weight := weight, alt_skus := alt_skus }

/-- Insert into an association list with `HashMap::insert` semantics:
replace the binding when the key is present, append otherwise. -/
def insertKV {α : Type} (m : List (String × α)) (k : String) (v : α) : List (String × α) :=
  if k ∈ m.map Prod.fst then
    m.map (fun kv => if kv.1 = k then (k, v) else kv)
  else m ++ [(k, v)]

/-- The row loop of `parse_item_data`: 1-indexed rows, later rows with a
duplicate sku overwriting earlier ones. -/
def parseItemDataGo : List (List String) → ℕ → List (String × IntermediateBaseProduct) →
    Except AbcParseError (List (String × IntermediateBaseProduct))
  | [], _, acc => .ok acc
  | row :: rest, i, acc =>
    match parseBaseRow row (i + 1) with
    | .error e => .error e
    | .ok p => parseItemDataGo rest (i + 1) (insertKV acc p.sku p)

/-- Embeds `IntermediateBaseProduct::parse_item_data` (src/lib.rs lines
525-622) on the rows the delimited reader yields. -/
def parse_item_data (rows : List (List String)) :
    Except AbcParseError (List (String × IntermediateBaseProduct)) :=
  parseItemDataGo rows 0 []

/-- Embeds one iteration of the row loop of
`IntermediatePostedProduct::parse_item_posted_data` (src/lib.rs lines
475-503): sku (0), stock (19, parse failure a hard error), last-sold date
(1, parse failure soft). -/
def parsePostedRow (row : List String) (i : ℕ) : Except AbcParseError IntermediatePostedProduct := do
  let sku ← req (row.get? 0) (.MissingField "sku" i)
  let stockStr ← req (row.get? 19) (.MissingField "stock" i)
  let stock ← req (parseF64 stockStr)
    (.Custom ("Cannot parse f64 from stock_str in row " ++ toString i ++ " of posted items"))
  let lastSoldStr ← req (row.get? 1) (.MissingField "last_sold" i)
  let last_sold := parseDate lastSoldStr
  .ok { sku := sku, stock := stock, last_sold := last_sold }

/-- The row loop of `parse_item_posted_data`, 1-indexed, last row wins on a
duplicate sku. -/
def parsePostedDataGo : List (List String) → ℕ → List (String × IntermediatePostedProduct) →
    Except AbcParseError (List (String × IntermediatePostedProduct))
  | [], _, acc => .ok acc
  | row :: rest, i, acc =>
    match parsePostedRow row (i + 1) with
    | .error e => .error e
    | .ok p => parsePostedDataGo rest (i + 1) (insertKV acc p.sku p)

/-- Embeds `IntermediatePostedProduct::parse_item_posted_data` (src/lib.rs
lines 465-505) on the rows the delimited reader yields. -/
def parse_item_posted_data (rows : List (List String)) :
    Except AbcParseError (List (String × IntermediatePostedProduct)) :=
  parsePostedDataGo rows 0 []

/-- The merged product built by `TryFrom<(&IntermediateBaseProduct,
&IntermediatePostedProduct)>` on success (src/lib.rs lines 229-240). -/
def mergeProduct (inter : IntermediateBaseProduct) (posted : IntermediatePostedProduct) : AbcProduct :=
  { sku := inter.sku, desc := inter.desc, alt_skus := inter.alt_skus,
    upcs := inter.upcs, cost := inter.cost, list := inter.list,
    group := inter.group, weight := inter.weight, stock := posted.stock,
    last_sold := posted.last_sold }

/-- Embeds the `TryFrom` merge (src/lib.rs lines 220-242): the defensive
sku-equality check, then the field-by-field merge. -/
def tryFromPair (inter : IntermediateBaseProduct) (posted : IntermediatePostedProduct) :
    Except AbcParseError AbcProduct :=
  if inter.sku ≠ posted.sku then .error .MisMatchedSkus
  else .ok (mergeProduct inter posted)

/-- The error `from_db_export` returns when the two maps have different
cardinalities (src/lib.rs lines 199-202); the spec calls this condition
RowCountMismatch.  The message typo is the source's. -/
def rowCountMismatchError : AbcParseError :=
  .Custom "The item_posted.data and item.data files have a different nember of items"

/-- The error `from_db_export` returns when a base sku has no posted
counterpart (src/lib.rs lines 210-213); the spec calls this condition
UnmatchedKey.  The sku is quoted in the message exactly as `format!`
interpolates it. -/
def unmatchedKeyError (sku : String) : AbcParseError :=
  .Custom ("item_posted.data file has no product with sku "
    ++ (Char.ofNat 39).toString ++ sku ++ (Char.ofNat 39).toString)

/-- The reconciliation loop of `from_db_export` (src/lib.rs lines
205-215): walk the base map, look each sku up in the posted map, merge, and
insert into the output map. -/
def reconcileGo (posted : List (String × IntermediatePostedProduct)) :
    List (String × IntermediateBaseProduct) → List (String × AbcProduct) →
    Except AbcParseError (List (String × AbcProduct))
  | [], acc => .ok acc
  | (sku, base) :: rest, acc =>
    match List.lookup sku posted with
    | none => .error (unmatchedKeyError sku)
    | some p =>
      match tryFromPair base p with
      | .error e => .error e
      | .ok prod => reconcileGo posted rest (insertKV acc sku prod)

/-- The reconciliation step of `from_db_export` (src/lib.rs lines 198-216)
on already-extracted maps: cardinality check, then the merge loop. -/
def reconcile (base : List (String × IntermediateBaseProduct))
    (posted : List (String × IntermediatePostedProduct)) :
    Except AbcParseError (List (String × AbcProduct)) :=
  if base.length ≠ posted.length then .error rowCountMismatchError
  else reconcileGo posted base []

/-- Embeds `AbcProduct::from_db_export` (src/lib.rs lines 192-217) on the
row lists the delimited reader yields for the two files. -/
def AbcProduct.from_db_export (itemRows postedRows : List (List String)) :
    Except AbcParseError (List (String × AbcProduct)) :=
  match parse_item_data itemRows with
  | .error e => .error e
  | .ok base =>
    match parse_item_posted_data postedRows with
    | .error e => .error e
    | .ok posted => reconcile base posted

/-- Does this pipeline result carry the MisMatchedSkus error? -/
def errIsMisMatchedSkus (r : Except AbcParseError (List (String × AbcProduct))) : Bool :=
  match r with
  | .error .MisMatchedSkus => true
  | _ => false

/-- Is this character an uppercase ASCII letter? -/
def isUpperLetter (c : Char) : Bool :=
  'A' ≤ c && c ≤ 'Z'

/-- Is this string a single uppercase ASCII letter, as the spec requires of
a present discount group? -/
def isSingleUpperLetter (g : String) : Bool :=
  match g.data with
  | [c] => isUpperLetter c
  | _ => false

/-- A concrete base record used to exercise the reconciler. -/
def cBaseRec : IntermediateBaseProduct :=
  { sku := "A", desc := "D", upcs := [], list := ⟨1, 0⟩, cost := ⟨2, 0⟩,
    group := none, weight := none, alt_skus := [] }

/-- A concrete posted record used to exercise the reconciler. -/
def cPostedRec : IntermediatePostedProduct :=
  { sku := "A", stock := ⟨false, 5, 0⟩, last_sold := none }

/-- A concrete `item.data` row of 46 fields whose discount-group column
(18) holds the string "3". -/
def c8BaseRow : List String :=
  ["SK", "D"] ++ List.replicate 4 "" ++ ["1.00", "", "2.00"] ++
    List.replicate 9 "" ++ ["3"] ++ List.replicate 24 "" ++ ["", "", "1.5"]

/-- A concrete `item_posted.data` row of 20 fields matching `c8BaseRow`. -/
def c8PostedRow : List String :=
  ["SK", "2024-01-02"] ++ List.replicate 17 "" ++ ["1.5"]

/-- The product `from_db_export` yields for `c8BaseRow`/`c8PostedRow`. -/
def c8Product : AbcProduct :=
  { sku := "SK", desc := "D", upcs := [], list := ⟨100, 2⟩, cost := ⟨200, 2⟩,
    stock := ⟨false, 15, 1⟩, group := some "3", weight := some ⟨false, 15, 1⟩,
    last_sold := some ⟨2024, 1, 2⟩, alt_skus := [] }

/-- A concrete `item.data` row of 44 fields: every column up to the barcode
field (43) is present, but the weight column (45) is absent. -/
def c9Row : List String :=
  ["A", "D"] ++ List.replicate 4 "" ++ ["1.00", "", "2.00"] ++ List.replicate 35 ""

/-- Lookup distributes over append: the left list is consulted first. -/
theorem lookup_append {α : Type} (k : String) (l₁ l₂ : List (String × α)) :
    List.lookup k (l₁ ++ l₂) = (List.lookup k l₁).or (List.lookup k l₂) := by
  induction l₁ with
  | nil => simp [List.lookup]
  | cons kv t ih =>
    obtain ⟨k₁, v₁⟩ := kv
    cases hb : (k == k₁) with
    | false => simp [List.lookup, hb, ih]
    | true => simp [List.lookup, hb]

/-- A lookup that misses is exactly a key outside the key list. -/
theorem lookup_eq_none_iff {α : Type} {l : List (String × α)} {k : String} :
    List.lookup k l = none ↔ k ∉ l.map Prod.fst := by
  induction l with
  | nil => simp [List.lookup]
  | cons kv t ih =>
    obtain ⟨k₁, v₁⟩ := kv
    cases hb : (k == k₁) with
    | false =>
      have hne : k ≠ k₁ := by simpa using hb
      simp [List.lookup, hb, ih, hne]
    | true =>
      have heq : k = k₁ := by simpa using hb
      simp [List.lookup, hb, heq]

/-- A successful lookup produces a member binding. -/
theorem lookup_mem {α : Type} {l : List (String × α)} {k : String} {v : α}
    (h : List.lookup k l = some v) : (k, v) ∈ l := by
  induction l with
  | nil => simp [List.lookup] at h
  | cons kv t ih =>
    obtain ⟨k₁, v₁⟩ := kv
    cases hb : (k == k₁) with
    | false =>
      simp only [List.lookup, hb] at h
      exact List.mem_cons_of_mem _ (ih h)
    | true =>
      simp only [List.lookup, hb] at h
      have heq : k = k₁ := by simpa using hb
      injection h with hv
      subst heq hv
      exact List.mem_cons_self _ _

/-- Inserting a fresh key appends the binding. -/
theorem insertKV_not_mem {α : Type} {m : List (String × α)} {k : String} (v : α)
    (h : k ∉ m.map Prod.fst) : insertKV m k v = m ++ [(k, v)] := by
  simp [insertKV, h]

/-- C2: for every builder state, `build` fails with a `MissingField` error
when any one of sku, desc, list, cost, or stock was never set, and succeeds
when all five are set even if every optional field is unset, the built
product then carrying the absent/empty value for each optional field. -/
theorem c2_build_required_fields (b : AbcProductBuilder) :
    ((b.sku = none ∨ b.desc = none ∨ b.list = none ∨ b.cost = none ∨ b.stock = none) →
      ∃ f, f ∈ ["sku", "desc", "list", "cost", "stock"] ∧
        b.build = .error (.MissingField f 0)) ∧
    (∀ sku desc list cost stock,
      b.sku = some sku → b.desc = some desc → b.list = some list →
      b.cost = some cost → b.stock = some stock →
      b.group = none → b.weight = none → b.last_sold = none →
      b.upcs = [] → b.alt_skus = [] →
      b.build = .ok { sku := sku, desc := desc, upcs := [], list := list,
                      cost := cost, stock := stock, group := none,
                      weight := none, last_sold := none, alt_skus := [] }) := by
  constructor
  · intro h
    cases hs : b.sku with
    | none => exact ⟨"sku", by simp, by simp [AbcProductBuilder.build, hs]⟩
    | some s =>
      cases hd : b.desc with
      | none => exact ⟨"desc", by simp, by simp [AbcProductBuilder.build, hs, hd]⟩
      | some d =>
        cases hl : b.list with
        | none => exact ⟨"list", by simp, by simp [AbcProductBuilder.build, hs, hd, hl]⟩
        | some l =>
          cases hc : b.cost with
          | none => exact ⟨"cost", by simp, by simp [AbcProductBuilder.build, hs, hd, hl, hc]⟩
          | some c =>
            cases ht : b.stock with
            | none =>
              exact ⟨"stock", by simp, by simp [AbcProductBuilder.build, hs, hd, hl, hc, ht]⟩
            | some t => rcases h with h | h | h | h | h <;> simp_all
  · intro sku desc list cost stock h1 h2 h3 h4 h5 hg hw hls hu ha
    simp [AbcProductBuilder.build, h1, h2, h3, h4, h5, hg, hw, hls, hu, ha]

/-- Witness for C2 at two concrete builders: the empty builder fails on a
required field, and a builder with exactly the five required fields set
builds the product with absent optional fields. -/
theorem c2_build_required_fields_witness :
    (AbcProductBuilder.new.sku = none ∧
      ∃ f, f ∈ ["sku", "desc", "list", "cost", "stock"] ∧
        AbcProductBuilder.new.build = .error (.MissingField f 0)) ∧
    ((((((AbcProductBuilder.new.with_sku "A").with_desc "D").with_list ⟨1, 0⟩).with_cost ⟨2, 0⟩).with_stock ⟨false, 3, 0⟩).build =
      .ok { sku := "A", desc := "D", upcs := [], list := ⟨1, 0⟩, cost := ⟨2, 0⟩,
            stock := ⟨false, 3, 0⟩, group := none, weight := none, last_sold := none,
            alt_skus := [] }) :=
  ⟨⟨rfl, (c2_build_required_fields AbcProductBuilder.new).1 (Or.inl rfl)⟩,
    (c2_build_required_fields
        (((((AbcProductBuilder.new.with_sku "A").with_desc "D").with_list ⟨1, 0⟩).with_cost ⟨2, 0⟩).with_stock ⟨false, 3, 0⟩)).2
      "A" "D" ⟨1, 0⟩ ⟨2, 0⟩ ⟨false, 3, 0⟩ rfl rfl rfl rfl rfl rfl rfl rfl rfl rfl⟩

/-- C3: every product successfully built from a builder, when used to seed
a fresh builder through the `From<AbcProduct>` conversion, rebuilds to an
identical product. -/
theorem c3_build_roundtrip (b : AbcProductBuilder) (p : AbcProduct)
    (h : b.build = .ok p) :
    (AbcProductBuilder.fromProduct p).build = .ok p := by
  cases p
  rfl

/-- Witness for C3 at a concrete builder and its built product. -/
theorem c3_build_roundtrip_witness :
    ((((((AbcProductBuilder.new.with_sku "A").with_desc "D").with_list ⟨1, 0⟩).with_cost ⟨2, 0⟩).with_stock ⟨false, 3, 0⟩).build =
        .ok { sku := "A", desc := "D", upcs := [], list := ⟨1, 0⟩, cost := ⟨2, 0⟩,
              stock := ⟨false, 3, 0⟩, group := none, weight := none, last_sold := none,
              alt_skus := [] }) ∧
    (AbcProductBuilder.fromProduct
        { sku := "A", desc := "D", upcs := [], list := ⟨1, 0⟩, cost := ⟨2, 0⟩,
          stock := ⟨false, 3, 0⟩, group := none, weight := none, last_sold := none,
          alt_skus := [] }).build =
      .ok { sku := "A", desc := "D", upcs := [], list := ⟨1, 0⟩, cost := ⟨2, 0⟩,
            stock := ⟨false, 3, 0⟩, group := none, weight := none, last_sold := none,
            alt_skus := [] } :=
  ⟨rfl, c3_build_roundtrip
    (((((AbcProductBuilder.new.with_sku "A").with_desc "D").with_list ⟨1, 0⟩).with_cost ⟨2, 0⟩).with_stock ⟨false, 3, 0⟩)
    _ rfl⟩

/-- Splitting a digit-run/point/digit-run list with takeWhile and
dropWhile at the point recovers the two runs. -/
theorem takeWhile_dropWhile_split (intPart fracPart : List Char)
    (h : ∀ c ∈ intPart, c ≠ '.') :
    (intPart ++ '.' :: fracPart).takeWhile (fun c => c ≠ '.') = intPart ∧
    (intPart ++ '.' :: fracPart).dropWhile (fun c => c ≠ '.') = '.' :: fracPart := by
  induction intPart with
  | nil => simp
  | cons c t ih =>
    have hc : c ≠ '.' := h c (by simp)
    obtain ⟨ht1, ht2⟩ := ih (fun x hx => h x (by simp [hx]))
    constructor
    · rw [List.cons_append, List.takeWhile_cons, if_pos (by simpa using hc), ht1]
    · rw [List.cons_append, List.dropWhile_cons, if_pos (by simpa using hc), ht2]

/-- When the cleaned character list splits as digits, a point, and digits,
the sanitizer returns exactly the encoded decimal. -/
theorem price_from_str_decimal_split :
    ∀ (s : String) (intPart fracPart : List Char),
      s.data.filter (fun c => c.isDigit || c == '.') = intPart ++ '.' :: fracPart →
      (∀ c ∈ intPart, c.isDigit) → (∀ c ∈ fracPart, c.isDigit) →
      intPart ++ fracPart ≠ [] →
      price_from_str s = some ⟨natFromDigits (intPart ++ fracPart), fracPart.length⟩ := by
  intro s intPart fracPart hf hi hfr hne
  have hidot : ∀ c ∈ intPart, c ≠ '.' := by
    intro c hc hceq
    have hd := hi c hc
    rw [hceq] at hd
    simp at hd
  have hfdot : ∀ c ∈ fracPart, c ≠ '.' := by
    intro c hc hceq
    have hd := hfr c hc
    rw [hceq] at hd
    simp at hd
  have hsplit := takeWhile_dropWhile_split intPart fracPart hidot
  have hcount : (intPart ++ '.' :: fracPart).count '.' = 1 := by
    rw [List.count_append]
    have h1 : intPart.count '.' = 0 :=
      List.count_eq_zero.mpr (fun hmem => hidot _ hmem rfl)
    have h2 : fracPart.count '.' = 0 :=
      List.count_eq_zero.mpr (fun hmem => hfdot _ hmem rfl)
    simp [h1, h2]
  have hall : (intPart ++ '.' :: fracPart).all (fun c => c.isDigit || c == '.') = true := by
    rw [List.all_eq_true]
    intro c hc
    rcases List.mem_append.mp hc with hc | hc
    · simp [hi c hc]
    · rcases List.mem_cons.mp hc with hc | hc
      · simp [hc]
      · simp [hfr c hc]
  have hfilter : (intPart ++ '.' :: fracPart).filter Char.isDigit = intPart ++ fracPart := by
    rw [List.filter_append, List.filter_cons]
    have h1 : intPart.filter Char.isDigit = intPart :=
      List.filter_eq_self.mpr (fun c hc => hi c hc)
    have h2 : fracPart.filter Char.isDigit = fracPart :=
      List.filter_eq_self.mpr (fun c hc => hfr c hc)
    simp [h1, h2]
  unfold price_from_str decimalFromChars
  rw [hf]
  rw [if_neg (by simp)]
  rw [if_neg (by rw [hcount]; omega)]
  rw [if_pos hall]
  rw [if_neg (by rw [hfilter]; exact hne)]
  simp only [hsplit.1, hsplit.2, List.drop_succ_cons, List.drop_zero]

/-- C4: the numeric sanitizer strips every character that is not a decimal
digit or a decimal point and parses the remainder as an exact decimal:
"$5.99 ea" yields exactly 5.99, "1,234.50" yields exactly 1234.50 (the
comma discarded as noise), and it fails when the cleaned string is empty
or contains two decimal points. -/
theorem c4_price_sanitizer :
    (price_from_str "$5.99 ea" = some ⟨599, 2⟩ ∧
      (⟨599, 2⟩ : Decimal).val = (599 : ℚ) / 100) ∧
    (price_from_str "1,234.50" = some ⟨123450, 2⟩ ∧
      (⟨123450, 2⟩ : Decimal).val = (123450 : ℚ) / 100) ∧
    (∀ s : String, s.data.filter (fun c => c.isDigit || c == '.') = [] →
      price_from_str s = none) ∧
    (∀ s : String, 2 ≤ (s.data.filter (fun c => c.isDigit || c == '.')).count '.' →
      price_from_str s = none) ∧
    (∀ (s : String) (intPart fracPart : List Char),
      s.data.filter (fun c => c.isDigit || c == '.') = intPart ++ '.' :: fracPart →
      (∀ c ∈ intPart, c.isDigit) → (∀ c ∈ fracPart, c.isDigit) →
      intPart ++ fracPart ≠ [] →
      price_from_str s = some ⟨natFromDigits (intPart ++ fracPart), fracPart.length⟩) := by
  refine ⟨⟨?_, ?_⟩, ⟨?_, ?_⟩, ?_, ?_, price_from_str_decimal_split⟩
  · exact price_from_str_decimal_split "$5.99 ea" ['5'] ['9', '9']
      (by decide) (by decide) (by decide) (by decide)
  · norm_num [Decimal.val]
  · exact price_from_str_decimal_split "1,234.50" ['1', '2', '3', '4'] ['5', '0']
      (by decide) (by decide) (by decide) (by decide)
  · norm_num [Decimal.val]
  · intro s h
    unfold price_from_str
    rw [h]
    simp [decimalFromChars]
  · intro s h
    unfold price_from_str decimalFromChars
    by_cases he : s.data.filter (fun c => c.isDigit || c == '.') = []
    · rw [if_pos he]
    · rw [if_neg he, if_pos h]

/-- Witness for C4: the failure conjuncts applied at concrete inputs with
an empty cleaned string and a double decimal point, and the exactness
conjunct applied at "$5.99 ea". -/
theorem c4_price_sanitizer_witness :
    price_from_str "abc" = none ∧ price_from_str "1.2.3" = none ∧
    price_from_str "$5.99 ea" = some ⟨natFromDigits (['5'] ++ ['9', '9']), (['9', '9'] : List Char).length⟩ :=
  ⟨c4_price_sanitizer.2.2.1 "abc" (by decide),
    c4_price_sanitizer.2.2.2.1 "1.2.3" (by decide),
    c4_price_sanitizer.2.2.2.2 "$5.99 ea" ['5'] ['9', '9'] (by decide)
      (by decide) (by decide) (by decide)⟩

/-- A twelve-digit payload extended with its check digit is a well-formed
normalized barcode. -/
theorem validEan_mk (p : List ℕ) (hp : p.length = 12) :
    validEan ⟨p ++ [ean13CheckDigit p]⟩ := by
  have ht : (p ++ [ean13CheckDigit p]).take 12 = p := List.take_left' hp
  exact ⟨by simp [hp], by simp only [ht]⟩

/-- Every barcode the non-strict parser returns is well formed. -/
theorem from_str_nonstrict_some_valid {s : String} {e : Ean13}
    (h : Ean13.from_str_nonstrict s = some e) : validEan e := by
  unfold Ean13.from_str_nonstrict at h
  by_cases hd : s.data.all Char.isDigit
  · rw [if_pos hd] at h
    by_cases h13 : (digitVals s).length = 13
    · rw [if_pos h13] at h
      injection h with h
      subst h
      exact validEan_mk _ (by simp [List.length_take, h13])
    · rw [if_neg h13] at h
      by_cases h12 : (digitVals s).length = 12
      · rw [if_pos h12] at h
        injection h with h
        subst h
        exact validEan_mk _ (by simp [List.length_take, h12])
      · rw [if_neg h12] at h
        by_cases h11 : (digitVals s).length = 11
        · rw [if_pos h11] at h
          injection h with h
          subst h
          exact validEan_mk _ (by simp [h11])
        · rw [if_neg h11] at h
          exact absurd h (by simp)
  · rw [if_neg hd] at h
    exact absurd h (by simp)

/-- The non-strict parser accepts every all-digit string of length 11, 12
or 13. -/
theorem from_str_nonstrict_succeeds {s : String} (hd : s.data.all Char.isDigit = true)
    (hl : s.data.length = 11 ∨ s.data.length = 12 ∨ s.data.length = 13) :
    ∃ e, Ean13.from_str_nonstrict s = some e := by
  have hdv : (digitVals s).length = s.data.length := List.length_map _ _
  unfold Ean13.from_str_nonstrict
  rw [if_pos hd]
  rcases hl with h | h | h
  · rw [if_neg (by simp [hdv, h]), if_neg (by simp [hdv, h]), if_pos (by simp [hdv, h])]
    exact ⟨_, rfl⟩
  · rw [if_neg (by simp [hdv, h]), if_pos (by simp [hdv, h])]
    exact ⟨_, rfl⟩
  · rw [if_pos (by simp [hdv, h])]
    exact ⟨_, rfl⟩

/-- The non-strict parser rejects every all-digit string longer than 13. -/
theorem from_str_nonstrict_too_long {s : String} (hl : 13 < s.data.length) :
    Ean13.from_str_nonstrict s = none := by
  have hdv : (digitVals s).length = s.data.length := List.length_map _ _
  unfold Ean13.from_str_nonstrict
  by_cases hd : s.data.all Char.isDigit
  · rw [if_pos hd, if_neg (by omega), if_neg (by omega), if_neg (by omega)]
  · rw [if_neg hd]

/-- C5: barcode normalization in the base extractor classifies each raw
digit run by length: a run shorter than 11 digits is dropped; an 11-digit
run gets a placeholder digit appended and the non-strict parser yields a
valid 13-digit checksummed code; a run of 12 or 13 digits is passed
directly and the parser corrects the check digit rather than rejecting;
and any run the parser cannot handle is silently dropped, so every barcode
in the extracted list is well formed and no row fails on barcode data. -/
theorem c5_barcode_normalization :
    (∀ s : String, s.data.all Char.isDigit = true →
      (s.length < 11 → classifyUpcRun s = none) ∧
      (s.length = 11 → ∃ e, classifyUpcRun s = some e ∧ validEan e) ∧
      (s.length = 12 ∨ s.length = 13 → ∃ e, classifyUpcRun s = some e ∧ validEan e) ∧
      (13 < s.length → classifyUpcRun s = none)) ∧
    (∀ field : String, ∀ e ∈ parseUpcs field, validEan e) := by
  constructor
  · intro s hd
    refine ⟨?_, ?_, ?_, ?_⟩
    · intro h
      unfold classifyUpcRun
      rw [if_neg (by omega), if_pos h]
    · intro h
      unfold classifyUpcRun
      rw [if_pos h]
      have hdata : (s ++ "0").data = s.data ++ ['0'] := String.data_append s "0"
      have hd' : (s ++ "0").data.all Char.isDigit = true := by
        rw [hdata, List.all_append, hd]
        decide
      have hl' : (s ++ "0").data.length = 12 := by
        rw [hdata]
        have : s.data.length = 11 := h
        simp [this]
      obtain ⟨e, he⟩ := from_str_nonstrict_succeeds hd' (Or.inr (Or.inl hl'))
      exact ⟨e, he, from_str_nonstrict_some_valid he⟩
    · intro h
      unfold classifyUpcRun
      rw [if_neg (by omega), if_neg (by omega)]
      have hl : s.data.length = 12 ∨ s.data.length = 13 := h
      obtain ⟨e, he⟩ := from_str_nonstrict_succeeds hd (Or.inr hl)
      exact ⟨e, he, from_str_nonstrict_some_valid he⟩
    · intro h
      unfold classifyUpcRun
      rw [if_neg (by omega), if_neg (by omega)]
      exact from_str_nonstrict_too_long h
  · intro field e he
    unfold parseUpcs at he
    rcases List.mem_filterMap.mp he with ⟨a, _, ha⟩
    unfold classifyUpcRun at ha
    by_cases h11 : a.length = 11
    · rw [if_pos h11] at ha
      exact from_str_nonstrict_some_valid ha
    · rw [if_neg h11] at ha
      by_cases hlt : a.length < 11
      · rw [if_pos hlt] at ha
        exact absurd ha (by simp)
      · rw [if_neg hlt] at ha
        exact from_str_nonstrict_some_valid ha

/-- Witness for C5: the 11-digit run of the repository test normalizes to
a valid code, a 3-digit run is dropped, and a 14-digit run is dropped. -/
theorem c5_barcode_normalization_witness :
    ("85875500014".data.all Char.isDigit = true ∧ "85875500014".length = 11) ∧
    (∃ e, classifyUpcRun "85875500014" = some e ∧ validEan e) ∧
    classifyUpcRun "123" = none ∧
    classifyUpcRun "12345678901234" = none :=
  ⟨⟨by decide, by decide⟩,
    (c5_barcode_normalization.1 "85875500014" (by decide)).2.1 (by decide),
    (c5_barcode_normalization.1 "123" (by decide)).1 (by decide),
    (c5_barcode_normalization.1 "12345678901234" (by decide)).2.2.2 (by decide)⟩

/-- C6: whenever the two extracted maps have different cardinalities,
reconciliation fails with the row-count-mismatch error (the two files
describe different numbers of products) and returns no product map. -/
theorem c6_row_count_mismatch (base : List (String × IntermediateBaseProduct))
    (posted : List (String × IntermediatePostedProduct))
    (h : base.length ≠ posted.length) :
    reconcile base posted = .error rowCountMismatchError := by
  unfold reconcile
  rw [if_pos h]

/-- Witness for C6 at an empty base map and a one-entry posted map. -/
theorem c6_row_count_mismatch_witness :
    ([] : List (String × IntermediateBaseProduct)).length ≠ [("A", cPostedRec)].length ∧
    reconcile [] [("A", cPostedRec)] = .error rowCountMismatchError :=
  ⟨by decide, c6_row_count_mismatch [] [("A", cPostedRec)] (by decide)⟩

/-- When the per-record skus agree with their keys and some base key is
missing from the posted map, the merge loop stops with an unmatched-key
error naming a base key that is absent from the posted map, whatever the
accumulator. -/
theorem reconcileGo_missing_key (posted : List (String × IntermediatePostedProduct))
    (hp : ∀ kp ∈ posted, kp.2.sku = kp.1) :
    ∀ (base : List (String × IntermediateBaseProduct)) (acc : List (String × AbcProduct)),
    (∀ kb ∈ base, kb.2.sku = kb.1) →
    (∃ k, k ∈ base.map Prod.fst ∧ k ∉ posted.map Prod.fst) →
    ∃ k, k ∈ base.map Prod.fst ∧ k ∉ posted.map Prod.fst ∧
      reconcileGo posted base acc = .error (unmatchedKeyError k) := by
  intro base
  induction base with
  | nil =>
    intro acc _ hex
    obtain ⟨k, hk, _⟩ := hex
    simp at hk
  | cons kb rest ih =>
    intro acc hb hex
    obtain ⟨sku, b⟩ := kb
    cases hl : List.lookup sku posted with
    | none =>
      refine ⟨sku, by simp, lookup_eq_none_iff.mp hl, ?_⟩
      simp only [reconcileGo]
      rw [hl]
    | some p =>
      have hpsku : p.sku = sku := hp (sku, p) (lookup_mem hl)
      have hbsku : b.sku = sku := hb (sku, b) (by simp)
      have htf : tryFromPair b p = .ok (mergeProduct b p) := by
        unfold tryFromPair
        rw [if_neg (by simp [hpsku, hbsku])]
      have hskuposted : sku ∈ posted.map Prod.fst :=
        List.mem_map_of_mem Prod.fst (lookup_mem hl)
      obtain ⟨k, hk1, hk2⟩ := hex
      have hkrest : ∃ k, k ∈ rest.map Prod.fst ∧ k ∉ posted.map Prod.fst := by
        refine ⟨k, ?_, hk2⟩
        have hk1' : k = sku ∨ ∃ x, (k, x) ∈ rest := by simpa using hk1
        rcases hk1' with heq | ⟨x, hx⟩
        · exact absurd (heq ▸ hskuposted) hk2
        · exact List.mem_map_of_mem Prod.fst hx
      obtain ⟨k', h1, h2, h3⟩ := ih (insertKV acc sku (mergeProduct b p))
        (fun x hx => hb x (List.mem_cons_of_mem _ hx)) hkrest
      refine ⟨k', by simp [h1], h2, ?_⟩
      simp only [reconcileGo, hl, htf]
      exact h3

/-- C7: for extracted maps of equal cardinality in which some base key is
absent from the posted map, reconciliation fails with the unmatched-key
error naming a base key that has no posted counterpart, and returns no
product map. -/
theorem c7_unmatched_key (base : List (String × IntermediateBaseProduct))
    (posted : List (String × IntermediatePostedProduct))
    (hlen : base.length = posted.length)
    (hb : ∀ kb ∈ base, kb.2.sku = kb.1)
    (hp : ∀ kp ∈ posted, kp.2.sku = kp.1)
    (hex : ∃ k, k ∈ base.map Prod.fst ∧ k ∉ posted.map Prod.fst) :
    ∃ k, k ∈ base.map Prod.fst ∧ k ∉ posted.map Prod.fst ∧
      reconcile base posted = .error (unmatchedKeyError k) := by
  obtain ⟨k, h1, h2, h3⟩ := reconcileGo_missing_key posted hp base [] hb hex
  refine ⟨k, h1, h2, ?_⟩
  unfold reconcile
  rw [if_neg (by simp [hlen])]
  exact h3

/-- Witness for C7 at concrete one-entry maps with disjoint keys. -/
theorem c7_unmatched_key_witness :
    ([("A", cBaseRec)].length = [("C", cPostedRec)].length ∧
      (∀ kb ∈ [("A", cBaseRec)], kb.2.sku = kb.1)) ∧
    ∃ k, k ∈ [("A", cBaseRec)].map Prod.fst ∧
      k ∉ ([("C", ({ sku := "C", stock := ⟨false, 5, 0⟩, last_sold := none } : IntermediatePostedProduct))].map Prod.fst) ∧
      reconcile [("A", cBaseRec)] [("C", ({ sku := "C", stock := ⟨false, 5, 0⟩, last_sold := none } : IntermediatePostedProduct))] =
        .error (unmatchedKeyError k) :=
  ⟨⟨by decide, by decide⟩,
    c7_unmatched_key [("A", cBaseRec)]
      [("C", ({ sku := "C", stock := ⟨false, 5, 0⟩, last_sold := none } : IntermediatePostedProduct))]
      (by decide) (by decide) (by decide) ⟨"A", by decide, by decide⟩⟩

/-- The merge loop of the reconciler, run on sku-consistent maps in which
every base key has a posted counterpart and the base keys are distinct,
succeeds and extends the accumulator with one merged product per base
binding. -/
theorem reconcileGo_spec (posted : List (String × IntermediatePostedProduct))
    (hp : ∀ kp ∈ posted, kp.2.sku = kp.1) :
    ∀ (base : List (String × IntermediateBaseProduct)) (acc : List (String × AbcProduct)),
    (∀ kb ∈ base, kb.2.sku = kb.1) →
    (∀ kb ∈ base, (List.lookup kb.1 posted).isSome) →
    (base.map Prod.fst).Nodup →
    (∀ kb ∈ base, List.lookup kb.1 acc = none) →
    ∃ M, reconcileGo posted base acc = .ok M ∧
      M.length = acc.length + base.length ∧
      (∀ k v, List.lookup k acc = some v → List.lookup k M = some v) ∧
      (∀ k b p, (k, b) ∈ base → List.lookup k posted = some p →
        List.lookup k M = some (mergeProduct b p)) := by
  intro base
  induction base with
  | nil =>
    intro acc _ _ _ _
    exact ⟨acc, rfl, by simp, fun k v h => h, by simp⟩
  | cons kb rest ih =>
    intro acc hb hsub hnd hdisj
    obtain ⟨sku, b⟩ := kb
    have hbsku : b.sku = sku := hb (sku, b) (by simp)
    have hks : (List.lookup sku posted).isSome := hsub (sku, b) (by simp)
    obtain ⟨p, hlp⟩ := Option.isSome_iff_exists.mp hks
    have hpsku : p.sku = sku := hp (sku, p) (lookup_mem hlp)
    have htf : tryFromPair b p = .ok (mergeProduct b p) := by
      unfold tryFromPair
      rw [if_neg (by simp [hbsku, hpsku])]
    have hskuacc : List.lookup sku acc = none := hdisj (sku, b) (by simp)
    have hnotmem : sku ∉ acc.map Prod.fst := lookup_eq_none_iff.mp hskuacc
    have hins : insertKV acc sku (mergeProduct b p) = acc ++ [(sku, mergeProduct b p)] :=
      insertKV_not_mem _ hnotmem
    have hnd' : (rest.map Prod.fst).Nodup := (List.nodup_cons.mp (by simpa using hnd)).2
    have hskurest : sku ∉ rest.map Prod.fst := (List.nodup_cons.mp (by simpa using hnd)).1
    have hdisj' : ∀ kb ∈ rest, List.lookup kb.1 (acc ++ [(sku, mergeProduct b p)]) = none := by
      intro x hx
      rw [lookup_append]
      have h1 : List.lookup x.1 acc = none := hdisj x (List.mem_cons_of_mem _ hx)
      have h2 : List.lookup x.1 [(sku, mergeProduct b p)] = none := by
        apply lookup_eq_none_iff.mpr
        intro hmem
        have hx1 : x.1 = sku := by simpa using hmem
        exact hskurest (hx1 ▸ List.mem_map_of_mem Prod.fst hx)
      rw [h1, h2]
      rfl
    obtain ⟨M, hM1, hM2, hM3, hM4⟩ := ih (acc ++ [(sku, mergeProduct b p)])
      (fun x hx => hb x (List.mem_cons_of_mem _ hx))
      (fun x hx => hsub x (List.mem_cons_of_mem _ hx)) hnd' hdisj'
    refine ⟨M, ?_, ?_, ?_, ?_⟩
    · simp only [reconcileGo, hlp, htf]
      rw [hins]
      exact hM1
    · rw [hM2]
      simp
      omega
    · intro k v hkv
      apply hM3
      rw [lookup_append, hkv]
      rfl
    · intro k b' p' hmem hlp'
      rcases List.mem_cons.mp hmem with heq | hmem'
      · obtain ⟨hk, hb'⟩ := Prod.mk.injEq _ _ _ _ ▸ heq
        subst hk
        subst hb'
        rw [hlp] at hlp'
        injection hlp' with hpp
        subst hpp
        apply hM3
        rw [lookup_append, hskuacc]
        simp [List.lookup]
      · exact hM4 k b' p' hmem' hlp'

/-- C1: for extracted maps of equal cardinality N whose key sets coincide,
reconciliation succeeds with a map of exactly N products, each product
taking sku, desc, upcs, list, cost, group, weight and alt_skus from the
base record and stock and last_sold from the posted record of its key. -/
theorem c1_reconcile_merges (base : List (String × IntermediateBaseProduct))
    (posted : List (String × IntermediatePostedProduct))
    (hlen : base.length = posted.length)
    (hb : ∀ kb ∈ base, kb.2.sku = kb.1)
    (hp : ∀ kp ∈ posted, kp.2.sku = kp.1)
    (hnd : (base.map Prod.fst).Nodup)
    (hsub : ∀ kb ∈ base, (List.lookup kb.1 posted).isSome = true) :
    ∃ M, reconcile base posted = .ok M ∧ M.length = base.length ∧
      (∀ k b p, (k, b) ∈ base → List.lookup k posted = some p →
        List.lookup k M = some { sku := b.sku, desc := b.desc, upcs := b.upcs,
                                 list := b.list, cost := b.cost, stock := p.stock,
                                 group := b.group, weight := b.weight,
                                 last_sold := p.last_sold, alt_skus := b.alt_skus }) := by
  obtain ⟨M, h1, h2, _, h4⟩ :=
    reconcileGo_spec posted hp base [] hb hsub hnd (fun kb _ => rfl)
  refine ⟨M, ?_, by simpa using h2, ?_⟩
  · unfold reconcile
    rw [if_neg (by simp [hlen])]
    exact h1
  · intro k b p hmem hlp
    have h := h4 k b p hmem hlp
    rw [h]
    rfl

/-- Witness for C1 at concrete one-entry maps sharing the key "A". -/
theorem c1_reconcile_merges_witness :
    ([("A", cBaseRec)].length = [("A", cPostedRec)].length ∧
      ([("A", cBaseRec)].map Prod.fst).Nodup ∧
      (∀ kb ∈ [("A", cBaseRec)], (List.lookup kb.1 [("A", cPostedRec)]).isSome = true)) ∧
    ∃ M, reconcile [("A", cBaseRec)] [("A", cPostedRec)] = .ok M ∧
      M.length = [("A", cBaseRec)].length ∧
      (∀ k b p, (k, b) ∈ [("A", cBaseRec)] → List.lookup k [("A", cPostedRec)] = some p →
        List.lookup k M = some { sku := b.sku, desc := b.desc, upcs := b.upcs,
                                 list := b.list, cost := b.cost, stock := p.stock,
                                 group := b.group, weight := b.weight,
                                 last_sold := p.last_sold, alt_skus := b.alt_skus }) :=
  ⟨⟨by decide, by decide, by decide⟩,
    c1_reconcile_merges [("A", cBaseRec)] [("A", cPostedRec)]
      (by decide) (by decide) (by decide) (by decide) (by decide)⟩

/-- Binding a successful Except computation runs the continuation. -/
theorem except_bind_ok {α β : Type} (a : α) (f : α → Except AbcParseError β) :
    (Except.ok a >>= f) = f a := rfl

/-- Binding a failed Except computation propagates the error. -/
theorem except_bind_error {α β : Type} (e : AbcParseError) (f : α → Except AbcParseError β) :
    ((Except.error e : Except AbcParseError α) >>= f) = Except.error e := rfl

/-- Case-folding an ASCII letter yields an uppercase ASCII letter. -/
theorem toUpper_isUpperLetter {c : Char}
    (h : ('A' ≤ c ∧ c ≤ 'Z') ∨ ('a' ≤ c ∧ c ≤ 'z')) :
    isUpperLetter (Char.toUpper c) = true := by
  have key : ∀ n, n < 123 → 65 ≤ n → (n ≤ 90 ∨ 97 ≤ n) →
      isUpperLetter (Char.toUpper (Char.ofNat n)) = true := by decide
  have h1 : 65 ≤ c.toNat ∧ (c.toNat ≤ 90 ∨ 97 ≤ c.toNat) ∧ c.toNat < 123 := by
    rcases h with ⟨ha, hb⟩ | ⟨ha, hb⟩
    · have ha' : (65 : ℕ) ≤ c.toNat := Char.le_def.mp ha
      have hb' : c.toNat ≤ (90 : ℕ) := Char.le_def.mp hb
      exact ⟨ha', Or.inl hb', by omega⟩
    · have ha' : (97 : ℕ) ≤ c.toNat := Char.le_def.mp ha
      have hb' : c.toNat ≤ (122 : ℕ) := Char.le_def.mp hb
      exact ⟨by omega, Or.inr ha', by omega⟩
  have hc : Char.ofNat c.toNat = c := Char.ofNat_toNat c
  rw [← hc]
  exact key c.toNat h1.2.2 h1.1 h1.2.1

/-- Counterexample to C8: a product observable through `from_db_export`
whose discount group is the raw column value "3", which is not a single
uppercase letter — the extractor does not validate the group column. -/
theorem c8_group_invariant_counterexample :
    AbcProduct.from_db_export [c8BaseRow] [c8PostedRow] = .ok [("SK", c8Product)] ∧
    c8Product.group = some "3" ∧
    isSingleUpperLetter "3" = false :=
  ⟨by decide, by decide, by decide⟩

/-- C8 (amended): `with_group` accepts exactly the characters A-Z and a-z,
folding lowercase to uppercase so that the stored group is a single
uppercase letter, and returns an absent result for any other character;
products obtained from `from_db_export` carry the raw nonempty group
column text, which need not satisfy this invariant. -/
theorem c8_with_group_amended (b : AbcProductBuilder) (c : Char) :
    (((c < 'A' ∨ 'Z' < c) ∧ (c < 'a' ∨ 'z' < c)) → b.with_group c = none) ∧
    (¬((c < 'A' ∨ 'Z' < c) ∧ (c < 'a' ∨ 'z' < c)) →
      b.with_group c = some { b with group := some (Char.toUpper c).toString } ∧
      isSingleUpperLetter ((Char.toUpper c).toString) = true) := by
  constructor
  · intro h
    unfold AbcProductBuilder.with_group
    rw [if_pos h]
  · intro h
    constructor
    · unfold AbcProductBuilder.with_group
      rw [if_neg h]
    · have h' : ('A' ≤ c ∧ c ≤ 'Z') ∨ ('a' ≤ c ∧ c ≤ 'z') := by
        rcases not_and_or.mp h with h1 | h1
        · rcases not_or.mp h1 with ⟨h2, h3⟩
          exact Or.inl ⟨not_lt.mp h2, not_lt.mp h3⟩
        · rcases not_or.mp h1 with ⟨h2, h3⟩
          exact Or.inr ⟨not_lt.mp h2, not_lt.mp h3⟩
      have hu := toUpper_isUpperLetter h'
      unfold isSingleUpperLetter
      simp only [Char.toString]
      exact hu
  
/-- Witness for the amended C8 at the lowercase letter b and the digit 3. -/
theorem c8_with_group_amended_witness :
    (¬((('b' : Char) < 'A' ∨ 'Z' < 'b') ∧ (('b' : Char) < 'a' ∨ 'z' < 'b')) ∧
      AbcProductBuilder.new.with_group 'b' =
        some { AbcProductBuilder.new with group := some (Char.toUpper 'b').toString } ∧
      isSingleUpperLetter ((Char.toUpper 'b').toString) = true) ∧
    (((('3' : Char) < 'A' ∨ 'Z' < '3') ∧ (('3' : Char) < 'a' ∨ 'z' < '3')) ∧
      AbcProductBuilder.new.with_group '3' = none) :=
  ⟨⟨by decide, (c8_with_group_amended AbcProductBuilder.new 'b').2 (by decide)⟩,
    ⟨by decide, (c8_with_group_amended AbcProductBuilder.new '3').1 (by decide)⟩⟩

/-- Counterexample to C9: a row in which every other read column is
present but the weight column (45) is absent makes the base extractor
fail with MissingField("weight") instead of yielding a record with an
absent weight. -/
theorem c9_weight_counterexample :
    (c9Row.get? 0).isSome = true ∧ (c9Row.get? 1).isSome = true ∧
    (c9Row.get? 6).isSome = true ∧ (c9Row.get? 8).isSome = true ∧
    (c9Row.get? 43).isSome = true ∧ (c9Row.get? 45).isSome = false ∧
    parse_item_data [c9Row] = .error (.MissingField "weight" 1) :=
  ⟨by decide, by decide, by decide, by decide, by decide, by decide, by decide⟩

/-- C9 (amended): the weight column itself is required to be present —
a row lacking column 45 fails with MissingField("weight") — but once every
read column is present and both prices sanitize, a weight value that fails
to parse as a float never causes an error: the row yields a partial base
record whose weight is the soft parse result, absent on parse failure. -/
theorem c9_weight_soft_parse (row : List String) (i : ℕ)
    (sku desc upcs listS costS weightS : String) (lv cv : Decimal)
    (h0 : row.get? 0 = some sku) (h1 : row.get? 1 = some desc)
    (h43 : row.get? 43 = some upcs) (h6 : row.get? 6 = some listS)
    (hl : price_from_str listS = some lv)
    (h8 : row.get? 8 = some costS) (hc : price_from_str costS = some cv)
    (h45 : row.get? 45 = some weightS) :
    ∃ r, parseBaseRow row i = .ok r ∧ r.weight = parseF64 weightS ∧
      (parseF64 weightS = none → r.weight = none) := by
  unfold parseBaseRow
  simp only [h0, h1, h43, h6, hl, h8, hc, h45, req, except_bind_ok]
  exact ⟨_, rfl, rfl, fun h => h⟩

/-- Witness for the amended C9 at a 46-column row whose weight text "xyz"
does not parse as a float. -/
theorem c9_weight_soft_parse_witness :
    ((c9Row ++ ["", "xyz"]).get? 45 = some "xyz" ∧ parseF64 "xyz" = none) ∧
    ∃ r, parseBaseRow (c9Row ++ ["", "xyz"]) 1 = .ok r ∧ r.weight = parseF64 "xyz" ∧
      (parseF64 "xyz" = none → r.weight = none) :=
  ⟨⟨by decide, by decide⟩,
    c9_weight_soft_parse (c9Row ++ ["", "xyz"]) 1 "A" "D" "" "1.00" "2.00" "xyz"
      ⟨100, 2⟩ ⟨200, 2⟩ (by decide) (by decide) (by decide) (by decide)
      (by decide) (by decide) (by decide) (by decide)⟩

/-- Parsing one base row never produces the MisMatchedSkus error. -/
theorem parseBaseRow_ne_mms (row : List String) (i : ℕ) :
    parseBaseRow row i ≠ .error .MisMatchedSkus := by
  unfold parseBaseRow
  cases h0 : row.get? 0 with
  | none => simp [req, except_bind_ok, except_bind_error, h0]
  | some v0 =>
  cases h1 : row.get? 1 with
  | none => simp [req, except_bind_ok, except_bind_error, h0, h1]
  | some v1 =>
  cases h43 : row.get? 43 with
  | none => simp [req, except_bind_ok, except_bind_error, h0, h1, h43]
  | some v43 =>
  cases h6 : row.get? 6 with
  | none => simp [req, except_bind_ok, except_bind_error, h0, h1, h43, h6]
  | some v6 =>
  cases hp6 : price_from_str v6 with
  | none => simp [req, except_bind_ok, except_bind_error, h0, h1, h43, h6, hp6]
  | some l =>
  cases h8 : row.get? 8 with
  | none => simp [req, except_bind_ok, except_bind_error, h0, h1, h43, h6, hp6, h8]
  | some v8 =>
  cases hp8 : price_from_str v8 with
  | none => simp [req, except_bind_ok, except_bind_error, h0, h1, h43, h6, hp6, h8, hp8]
  | some c =>
  cases h45 : row.get? 45 with
  | none => simp [req, except_bind_ok, except_bind_error, h0, h1, h43, h6, hp6, h8, hp8, h45]
  | some v45 => simp [req, except_bind_ok, except_bind_error, h0, h1, h43, h6, hp6, h8, hp8, h45]

/-- Parsing one posted row never produces the MisMatchedSkus error. -/
theorem parsePostedRow_ne_mms (row : List String) (i : ℕ) :
    parsePostedRow row i ≠ .error .MisMatchedSkus := by
  unfold parsePostedRow
  cases h0 : row.get? 0 with
  | none => simp [req, except_bind_ok, except_bind_error, h0]
  | some v0 =>
  cases h19 : row.get? 19 with
  | none => simp [req, except_bind_ok, except_bind_error, h0, h19]
  | some v19 =>
  cases hf : parseF64 v19 with
  | none => simp [req, except_bind_ok, except_bind_error, h0, h19, hf]
  | some st =>
  cases h1 : row.get? 1 with
  | none => simp [req, except_bind_ok, except_bind_error, h0, h19, hf, h1]
  | some v1 => simp [req, except_bind_ok, except_bind_error, h0, h19, hf, h1]

/-- Membership in an updated association list comes from the old list or
is the new binding. -/
theorem mem_insertKV {α : Type} {m : List (String × α)} {k : String} {v : α}
    {kv : String × α} (h : kv ∈ insertKV m k v) : kv ∈ m ∨ kv = (k, v) := by
  unfold insertKV at h
  by_cases hmem : k ∈ m.map Prod.fst
  · rw [if_pos hmem] at h
    rcases List.mem_map.mp h with ⟨x, hx, hfx⟩
    by_cases hxk : x.1 = k
    · rw [if_pos hxk] at hfx
      exact Or.inr hfx.symm
    · rw [if_neg hxk] at hfx
      exact Or.inl (hfx ▸ hx)
  · rw [if_neg hmem] at h
    rcases List.mem_append.mp h with h | h
    · exact Or.inl h
    · exact Or.inr (by simpa using h)

/-- Every binding the base-row loop stores has its record sku equal to its
key, and the loop never produces the MisMatchedSkus error. -/
theorem parseItemDataGo_spec : ∀ (rows : List (List String)) (i : ℕ)
    (acc : List (String × IntermediateBaseProduct)),
    (∀ kv ∈ acc, kv.2.sku = kv.1) →
    (∀ m, parseItemDataGo rows i acc = .ok m → ∀ kv ∈ m, kv.2.sku = kv.1) ∧
    parseItemDataGo rows i acc ≠ .error .MisMatchedSkus := by
  intro rows
  induction rows with
  | nil =>
    intro i acc hacc
    refine ⟨?_, by simp [parseItemDataGo]⟩
    intro m hm
    injection hm with hm
    exact hm ▸ hacc
  | cons row rest ih =>
    intro i acc hacc
    constructor
    · intro m hm
      simp only [parseItemDataGo] at hm
      cases hp : parseBaseRow row (i + 1) with
      | error e => rw [hp] at hm; simp at hm
      | ok p =>
        rw [hp] at hm
        have hacc' : ∀ kv ∈ insertKV acc p.sku p, kv.2.sku = kv.1 := by
          intro kv hkv
          rcases mem_insertKV hkv with h | h
          · exact hacc kv h
          · rw [h]
        exact (ih (i + 1) (insertKV acc p.sku p) hacc').1 m hm
    · intro hm
      simp only [parseItemDataGo] at hm
      cases hp : parseBaseRow row (i + 1) with
      | error e =>
        rw [hp] at hm
        simp only [Except.error.injEq] at hm
        exact parseBaseRow_ne_mms row (i + 1) (hm ▸ hp)
      | ok p =>
        rw [hp] at hm
        have hacc' : ∀ kv ∈ insertKV acc p.sku p, kv.2.sku = kv.1 := by
          intro kv hkv
          rcases mem_insertKV hkv with h | h
          · exact hacc kv h
          · rw [h]
        exact (ih (i + 1) (insertKV acc p.sku p) hacc').2 hm

/-- Every binding the posted-row loop stores has its record sku equal to
its key, and the loop never produces the MisMatchedSkus error. -/
theorem parsePostedDataGo_spec : ∀ (rows : List (List String)) (i : ℕ)
    (acc : List (String × IntermediatePostedProduct)),
    (∀ kv ∈ acc, kv.2.sku = kv.1) →
    (∀ m, parsePostedDataGo rows i acc = .ok m → ∀ kv ∈ m, kv.2.sku = kv.1) ∧
    parsePostedDataGo rows i acc ≠ .error .MisMatchedSkus := by
  intro rows
  induction rows with
  | nil =>
    intro i acc hacc
    refine ⟨?_, by simp [parsePostedDataGo]⟩
    intro m hm
    injection hm with hm
    exact hm ▸ hacc
  | cons row rest ih =>
    intro i acc hacc
    constructor
    · intro m hm
      simp only [parsePostedDataGo] at hm
      cases hp : parsePostedRow row (i + 1) with
      | error e => rw [hp] at hm; simp at hm
      | ok p =>
        rw [hp] at hm
        have hacc' : ∀ kv ∈ insertKV acc p.sku p, kv.2.sku = kv.1 := by
          intro kv hkv
          rcases mem_insertKV hkv with h | h
          · exact hacc kv h
          · rw [h]
        exact (ih (i + 1) (insertKV acc p.sku p) hacc').1 m hm
    · intro hm
      simp only [parsePostedDataGo] at hm
      cases hp : parsePostedRow row (i + 1) with
      | error e =>
        rw [hp] at hm
        simp only [Except.error.injEq] at hm
        exact parsePostedRow_ne_mms row (i + 1) (hm ▸ hp)
      | ok p =>
        rw [hp] at hm
        have hacc' : ∀ kv ∈ insertKV acc p.sku p, kv.2.sku = kv.1 := by
          intro kv hkv
          rcases mem_insertKV hkv with h | h
          · exact hacc kv h
          · rw [h]
        exact (ih (i + 1) (insertKV acc p.sku p) hacc').2 hm

/-- With sku-consistent maps the merge loop never produces the
MisMatchedSkus error: matched records always carry identical skus. -/
theorem reconcileGo_ne_mms (posted : List (String × IntermediatePostedProduct))
    (hp : ∀ kp ∈ posted, kp.2.sku = kp.1) :
    ∀ (base : List (String × IntermediateBaseProduct)) acc,
    (∀ kb ∈ base, kb.2.sku = kb.1) →
    reconcileGo posted base acc ≠ .error .MisMatchedSkus := by
  intro base
  induction base with
  | nil =>
    intro acc _ h
    simp [reconcileGo] at h
  | cons kb rest ih =>
    intro acc hb h
    obtain ⟨sku, b⟩ := kb
    simp only [reconcileGo] at h
    cases hl : List.lookup sku posted with
    | none =>
      simp only [hl] at h
      simp [unmatchedKeyError] at h
    | some p =>
      have hbsku : b.sku = sku := hb (sku, b) (by simp)
      have hpsku : p.sku = sku := hp (sku, p) (lookup_mem hl)
      have htf : tryFromPair b p = .ok (mergeProduct b p) := by
        unfold tryFromPair
        rw [if_neg (by simp [hbsku, hpsku])]
      simp only [hl, htf] at h
      exact ih _ (fun x hx => hb x (List.mem_cons_of_mem _ hx)) h

/-- No run of `from_db_export` returns the MisMatchedSkus error. -/
theorem from_db_export_ne_mms (itemRows postedRows : List (List String)) :
    AbcProduct.from_db_export itemRows postedRows ≠ .error .MisMatchedSkus := by
  unfold AbcProduct.from_db_export
  cases hb : parse_item_data itemRows with
  | error e =>
    show Except.error e ≠ Except.error AbcParseError.MisMatchedSkus
    intro h
    simp only [Except.error.injEq] at h
    exact (parseItemDataGo_spec itemRows 0 [] (by simp)).2 (h ▸ hb)
  | ok base =>
    cases hps : parse_item_posted_data postedRows with
    | error e =>
      show Except.error e ≠ Except.error AbcParseError.MisMatchedSkus
      intro h
      simp only [Except.error.injEq] at h
      exact (parsePostedDataGo_spec postedRows 0 [] (by simp)).2 (h ▸ hps)
    | ok posted =>
      show reconcile base posted ≠ Except.error AbcParseError.MisMatchedSkus
      unfold reconcile
      by_cases hlen : base.length ≠ posted.length
      · rw [if_pos hlen]
        simp [rowCountMismatchError]
      · rw [if_neg hlen]
        exact reconcileGo_ne_mms posted
          ((parsePostedDataGo_spec postedRows 0 [] (by simp)).1 posted hps)
          base []
          ((parseItemDataGo_spec itemRows 0 [] (by simp)).1 base hb)

/-- C10: the MisMatchedSkus branch is unreachable in `from_db_export`:
both extractors store every record under its own sku, so the defensive
key-equality check of the merge always passes, and no run of
`from_db_export` on any pair of row lists returns the MisMatchedSkus
error. -/
theorem c10_mismatched_skus_unreachable (itemRows postedRows : List (List String)) :
    errIsMisMatchedSkus (AbcProduct.from_db_export itemRows postedRows) = false := by
  cases hr : AbcProduct.from_db_export itemRows postedRows with
  | ok m => rfl
  | error e =>
    cases e with
    | CsvError m => rfl
    | MissingField f r => rfl
    | Custom s => rfl
    | MisMatchedSkus => exact absurd hr (from_db_export_ne_mms itemRows postedRows)
